import Mathlib

/-!
Shallow embedding of the two controllers of the `pr2_controllers` repository:

* `GripperCalibrationController::update`
  (src/pr2_calibration_controllers/src/gripper_calibration_controller.cpp)
* `CartesianWrenchController::update`
  (src/robot_mechanism_controllers/src/cartesian_wrench_controller.cpp)

Doubles are modelled as exact rationals (`ℚ`); the per-tick inputs the C++
reads from collaborators (joint velocity, actuator raw position, robot time,
the realtime publisher's trylock outcome) become explicit tick inputs, and the
controller's mutable members become a state record threaded through `updateG`.
-/

namespace Gripper

/-- The `state_` enum of `GripperCalibrationController`. -/
inductive CalState
  | INITIALIZED
  | BEGINNING
  | STARTING
  | CLOSING
  | CALIBRATED
  deriving DecidableEq, Repr

open CalState

/-- The mutable members of `GripperCalibrationController` touched by
`update()`, together with the collaborator state it writes:
`joint_->calibrated_`, each `other_joints_[i]->calibrated_`,
`actuator_->state_.zero_offset_`, and the inner velocity servo's setpoint
(set via `vc_.setCommand`). -/
structure GState where
  state : CalState
  count : ℕ
  stopCount : ℕ
  jointCalibrated : Bool
  otherCalibrated : List Bool
  zeroOffset : ℚ
  vcCommand : ℚ
  lastPublishTime : ℚ
  deriving DecidableEq, Repr

/-- Per-tick inputs read from collaborators during `update()`:
`joint_->velocity_`, `actuator_->state_.position_`, `robot_->getTime()`,
and whether `pub_calibrated_->trylock()` succeeds this tick. -/
structure TickInput where
  velocity : ℚ
  actuatorPosition : ℚ
  time : ℚ
  trylockOk : Bool
  deriving DecidableEq, Repr

/-- One tick of `GripperCalibrationController::update` (the `switch (state_)`
body).  `sv` is the configured `search_velocity_`.  Returns the new state and
whether the tick published the "calibrated" event
(`pub_calibrated_->unlockAndPublish()`). -/
def updateG (sv : ℚ) (s : GState) (inp : TickInput) : GState × Bool :=
  match s.state with
  | INITIALIZED => ({ s with state := BEGINNING }, false)
  | BEGINNING =>
      ({ s with count := 0, stopCount := 0, jointCalibrated := false,
                zeroOffset := 0, vcCommand := sv, state := STARTING }, false)
  | STARTING =>
      if s.count + 1 > 500 then
        ({ s with count := 0, stopCount := 0, state := CLOSING }, false)
      else
        ({ s with count := s.count + 1 }, false)
  | CLOSING =>
      let sc := if |inp.velocity| < 1/10000 then s.stopCount + 1 else 0
      if sc > 100 then
        ({ s with stopCount := sc,
                  zeroOffset := inp.actuatorPosition,
                  state := CALIBRATED,
                  jointCalibrated := true,
                  otherCalibrated := s.otherCalibrated.map (fun _ => true),
                  vcCommand := 0 }, false)
      else
        ({ s with stopCount := sc }, false)
  | CALIBRATED =>
      if s.lastPublishTime + 1/2 < inp.time then
        if inp.trylockOk then
          ({ s with lastPublishTime := inp.time }, true)
        else (s, false)
      else (s, false)

/-- Run `updateG` over a finite list of tick inputs. -/
def runG (sv : ℚ) (s : GState) (inputs : List TickInput) : GState :=
  inputs.foldl (fun t inp => (updateG sv t inp).1) s

/-- The controller state after `n` ticks of the infinite input stream `f`
(tick `k` consumes `f k`). -/
def iterG (sv : ℚ) (s : GState) (f : ℕ → TickInput) : ℕ → GState
  | 0 => s
  | n + 1 => (updateG sv (iterG sv s f n) (f n)).1

/-- Whether tick `n` of the stream publishes the calibrated event. -/
def publishesAt (sv : ℚ) (s : GState) (f : ℕ → TickInput) (n : ℕ) : Bool :=
  (updateG sv (iterG sv s f n) (f n)).2

/-- Position of a state in the linear order
`INITIALIZED → BEGINNING → STARTING → CLOSING → CALIBRATED`. -/
def ordS : CalState → ℕ
  | INITIALIZED => 0
  | BEGINNING => 1
  | STARTING => 2
  | CLOSING => 3
  | CALIBRATED => 4

end Gripper

namespace Wrench

/-- The `constraint_` struct of `CartesianWrenchController`
(`constraint/joint` defaults to the sentinel `-1`). -/
structure Constraint where
  joint : ℤ
  soft_limit : ℚ
  hard_limit : ℚ
  stiffness : ℚ
  deriving DecidableEq, Repr

/-- KDL's `sign` (orocos `utility.h`): `(arg<0) ? -1 : 1`; the controller
picks it up through `using namespace KDL`. -/
def sign (x : ℚ) : ℚ := if x < 0 then -1 else 1

/-- The controller's own mutable members relevant to a tick: the buffered
desired wrench `wrench_desi_` (6 entries, force x/y/z then torque x/y/z) and
the scratch buffers `jnt_pos_` and `jnt_eff_` that `update()` overwrites. -/
structure WState where
  wrench_desi : List ℚ
  jnt_pos : List ℚ
  jnt_eff : List ℚ
  deriving DecidableEq, Repr

/-- Entry `j` of the desired wrench, `wrench_desi_(j)`. -/
def wrenchAt (w : List ℚ) (j : ℕ) : ℚ := w.getD j 0

/-- The inner loop of `update()`:
`jnt_eff_(i) = 0; for j in 0..5: jnt_eff_(i) += jacobian_(j,i) * wrench_desi_(j)`. -/
def jointEffortBase (jac : ℕ → ℕ → ℚ) (w : List ℚ) (i : ℕ) : ℚ :=
  (List.range 6).foldl (fun acc j => acc + jac j i * wrenchAt w j) 0

/-- The full Jacobian-transpose effort vector for a chain of `n` joints,
before the constraint adjustment. -/
def baseEfforts (jac : ℕ → ℕ → ℚ) (w : List ℚ) (n : ℕ) : List ℚ :=
  (List.range n).map (jointEffortBase jac w)

/-- The `// apply joint constraint` block of `update()`: guarded by
`constraint_.joint >= 0 && constraint_.joint < (int)nrOfJoints`, it either
replaces entry `joint` (past the hard limit), adds the spring term to it
(past the soft limit), or leaves the vector alone. -/
def applyConstraint (c : Constraint) (pos : ℕ → ℚ) (n : ℕ) (eff : List ℚ) :
    List ℚ :=
  if 0 ≤ c.joint ∧ c.joint < (n : ℤ) then
    let k := c.joint.toNat
    let sgn := sign (c.hard_limit - c.soft_limit)
    if sgn * (c.hard_limit - pos k) < 0 then
      eff.set k (c.stiffness * (c.soft_limit - pos k))
    else if sgn * (c.soft_limit - pos k) < 0 then
      eff.set k (eff.getD k 0 + c.stiffness * (c.soft_limit - pos k))
    else eff
  else eff

/-- The effort vector `update()` hands to `chain_.setEfforts` on a
calibrated tick. -/
def cmdEfforts (c : Constraint) (pos : ℕ → ℚ) (jac : ℕ → ℕ → ℚ) (n : ℕ)
    (w : List ℚ) : List ℚ :=
  applyConstraint c pos n (baseEfforts jac w n)

/-- One tick of `CartesianWrenchController::update`.  `allCalibrated` is
`chain_.allCalibrated()`, `pos` the joint positions fetched by
`chain_.getPositions`, `jac` the Jacobian from `JntToJac`, `n` the chain's
`getNrOfJoints()`.  Returns the new controller state and the effort command
sent via `chain_.setEfforts` (`none` when the tick is skipped). -/
def updateW (c : Constraint) (allCalibrated : Bool) (pos : ℕ → ℚ)
    (jac : ℕ → ℕ → ℚ) (n : ℕ) (s : WState) : WState × Option (List ℚ) :=
  if allCalibrated = false then (s, none)
  else
    let eff := cmdEfforts c pos jac n s.wrench_desi
    ({ s with jnt_pos := (List.range n).map pos, jnt_eff := eff }, some eff)

end Wrench

/-! ## Concrete instances used by witnesses and counterexamples -/

namespace Gripper

/-- A state sitting in `BEGINNING` with one dependent joint whose
calibration flag is set. -/
def sBeg : GState :=
  { state := CalState.BEGINNING, count := 7, stopCount := 9,
    jointCalibrated := true, otherCalibrated := [true],
    zeroOffset := 5, vcCommand := 3, lastPublishTime := 0 }

/-- A state freshly arrived in `CLOSING` (counters reset on entry). -/
def sClo : GState :=
  { state := CalState.CLOSING, count := 0, stopCount := 0,
    jointCalibrated := false, otherCalibrated := [false, false],
    zeroOffset := 0, vcCommand := 3, lastPublishTime := 0 }

/-- A state in the terminal `CALIBRATED` state. -/
def sCal : GState :=
  { state := CalState.CALIBRATED, count := 0, stopCount := 101,
    jointCalibrated := true, otherCalibrated := [true],
    zeroOffset := 2, vcCommand := 0, lastPublishTime := 0 }

/-- A tick input with the joint at rest (velocity `0`). -/
def inpStill : TickInput :=
  { velocity := 0, actuatorPosition := 2, time := 0, trylockOk := true }

/-- A stream of at-rest ticks whose actuator position and time vary with
the tick index. -/
def fStill : ℕ → TickInput := fun k =>
  { velocity := 0, actuatorPosition := (k : ℚ), time := (k : ℚ),
    trylockOk := true }

/-- A stream of moving ticks (velocity `1`, well above the stall
threshold). -/
def fMoving : ℕ → TickInput := fun k =>
  { velocity := 1, actuatorPosition := (k : ℚ), time := (k : ℚ),
    trylockOk := true }

/-- A stream of ticks whose time advances by one second per tick, starting
at `1`, with the publisher lock always available. -/
def fClock : ℕ → TickInput := fun k =>
  { velocity := 0, actuatorPosition := 0, time := (k : ℚ) + 1,
    trylockOk := true }

end Gripper

namespace Wrench

/-- Identity Jacobian: row `j` maps one-to-one onto joint `j`. -/
def idJac : ℕ → ℕ → ℚ := fun j i => if j = i then 1 else 0

/-- The wrench `(1,0,0,0,0,0)`: unit force along x. -/
def wUnitX : List ℚ := [1, 0, 0, 0, 0, 0]

/-- Controller state holding the unit-x wrench. -/
def sWx : WState := { wrench_desi := wUnitX, jnt_pos := [], jnt_eff := [] }

/-- The default constraint configuration: joint index `-1`, the "none"
sentinel. -/
def noConstraint : Constraint :=
  { joint := -1, soft_limit := 0, hard_limit := 0, stiffness := 0 }

/-- The spec's example constraint: `soft=1.0, hard=1.5, stiffness=10` on
joint `0`. -/
def cEx : Constraint :=
  { joint := 0, soft_limit := 1, hard_limit := 3/2, stiffness := 10 }

end Wrench

/-! ## Helper lemmas -/

open Gripper Wrench

theorem getD_set_self :
    ∀ (l : List ℚ) (k : ℕ) (x : ℚ), k < l.length → (l.set k x).getD k 0 = x
  | [], _, _, h => absurd h (by simp)
  | _ :: _, 0, _, _ => rfl
  | _ :: l, k + 1, x, h => getD_set_self l k x (by simpa using h)

theorem getD_set_ne :
    ∀ (l : List ℚ) (i k : ℕ) (x : ℚ), i ≠ k →
      (l.set k x).getD i 0 = l.getD i 0
  | [], _, _, _, _ => rfl
  | _ :: _, 0, 0, _, h => absurd rfl h
  | _ :: _, 0, _ + 1, _, _ => rfl
  | _ :: _, _ + 1, 0, _, _ => rfl
  | _ :: l, i + 1, k + 1, x, h =>
      getD_set_ne l i k x (fun hik => h (by simpa using hik))

theorem getD_map_range (g : ℕ → ℚ) (n i : ℕ) (hi : i < n) :
    ((List.range n).map g).getD i 0 = g i := by
  rw [List.getD_eq_getElem?_getD, List.getElem?_map, List.getElem?_range hi]
  rfl

theorem jointEffortBase_eq_sum (jac : ℕ → ℕ → ℚ) (w : List ℚ) (i : ℕ) :
    jointEffortBase jac w i = ∑ j ∈ Finset.range 6, jac j i * wrenchAt w j := by
  simp [jointEffortBase, Finset.sum_range_succ, List.range_succ]

theorem baseEfforts_length (jac : ℕ → ℕ → ℚ) (w : List ℚ) (n : ℕ) :
    (baseEfforts jac w n).length = n := by
  simp [baseEfforts]

theorem baseEfforts_getD (jac : ℕ → ℕ → ℚ) (w : List ℚ) (n i : ℕ)
    (hi : i < n) :
    (baseEfforts jac w n).getD i 0
      = ∑ j ∈ Finset.range 6, jac j i * wrenchAt w j := by
  rw [baseEfforts, getD_map_range _ _ _ hi, jointEffortBase_eq_sum]

theorem updateW_calibrated (c : Constraint) (pos : ℕ → ℚ) (jac : ℕ → ℕ → ℚ)
    (n : ℕ) (s : WState) :
    (updateW c true pos jac n s).2 = some (cmdEfforts c pos jac n s.wrench_desi) := by
  simp [updateW]

theorem applyConstraint_valid (c : Constraint) (pos : ℕ → ℚ) (n : ℕ)
    (eff : List ℚ) (k : ℕ) (hk : c.joint = (k : ℤ)) (hkn : k < n) :
    applyConstraint c pos n eff =
      if sign (c.hard_limit - c.soft_limit) * (c.hard_limit - pos k) < 0 then
        eff.set k (c.stiffness * (c.soft_limit - pos k))
      else if sign (c.hard_limit - c.soft_limit) * (c.soft_limit - pos k) < 0 then
        eff.set k (eff.getD k 0 + c.stiffness * (c.soft_limit - pos k))
      else eff := by
  have hg : 0 ≤ c.joint ∧ c.joint < (n : ℤ) := by
    constructor
    · rw [hk]; exact Int.natCast_nonneg k
    · rw [hk]; exact_mod_cast hkn
  rw [applyConstraint, if_pos hg]
  simp only [hk, Int.toNat_natCast]

theorem applyConstraint_invalid (c : Constraint) (pos : ℕ → ℚ) (n : ℕ)
    (eff : List ℚ) (h : c.joint < 0 ∨ (n : ℤ) ≤ c.joint) :
    applyConstraint c pos n eff = eff := by
  rw [applyConstraint, if_neg]
  rintro ⟨h0, h1⟩
  omega

/-! ## Claim theorems -/

/-- C3: on a calibrated tick, the effort vector computed before any
constraint adjustment is the Jacobian-transpose projection
`effort[i] = Σ_j J[j][i] * W[j]` over the 6 wrench components; with the
identity Jacobian over 6 joints and wrench `(1,0,0,0,0,0)`, the commanded
effort vector is `1` at the force-x joint and `0` elsewhere. -/
theorem C3_jacobian_transpose_projection (jac : ℕ → ℕ → ℚ) (n : ℕ)
    (s : WState) (i : ℕ) (hi : i < n) :
    ((baseEfforts jac s.wrench_desi n).getD i 0
        = ∑ j ∈ Finset.range 6, jac j i * wrenchAt s.wrench_desi j) ∧
    (updateW noConstraint true (fun _ => 0) idJac 6 sWx).2
        = some [1, 0, 0, 0, 0, 0] := by
  refine ⟨baseEfforts_getD _ _ _ _ hi, ?_⟩
  rw [updateW_calibrated, cmdEfforts,
    applyConstraint_invalid _ _ _ _ (Or.inl (by decide))]
  norm_num [baseEfforts, jointEffortBase, idJac, sWx, wUnitX, wrenchAt,
    List.range_succ, List.getD_cons_zero, List.getD_cons_succ]

/-- Witness for C3 at `n = 6`, `i = 0`, identity Jacobian, unit-x wrench. -/
theorem C3_witness :
    ((baseEfforts idJac sWx.wrench_desi 6).getD 0 0
        = ∑ j ∈ Finset.range 6, idJac j 0 * wrenchAt sWx.wrench_desi j) ∧
    (updateW noConstraint true (fun _ => 0) idJac 6 sWx).2
        = some [1, 0, 0, 0, 0, 0] :=
  C3_jacobian_transpose_projection idJac 6 sWx 0 (by decide)

/-- C6: when the chain reports an uncalibrated joint, the tick returns
immediately: no effort command is issued and the controller's state is
untouched. -/
theorem C6_uncalibrated_noop (c : Constraint) (pos : ℕ → ℚ)
    (jac : ℕ → ℕ → ℚ) (n : ℕ) (s : WState) :
    updateW c false pos jac n s = (s, none) := rfl

/-- C2: with a valid constraint joint `k`, past the hard limit (in the
sense of `sign(hard − soft)`) the commanded effort at `k` is replaced by
`stiffness * (soft − pos k)`; past the soft limit only, that term is added
to the Jacobian-transpose effort; otherwise the efforts are unmodified.
With `soft=1`, `hard=3/2`, `stiffness=10` and position `8/5`, the effort at
`k` is exactly `-6`, for every Jacobian and desired wrench. -/
theorem C2_constraint_adjustment (c : Constraint) (pos : ℕ → ℚ)
    (jac : ℕ → ℕ → ℚ) (n : ℕ) (s : WState) (k : ℕ)
    (hk : c.joint = (k : ℤ)) (hkn : k < n) :
    ((updateW c true pos jac n s).2
        = some (cmdEfforts c pos jac n s.wrench_desi)) ∧
    (sign (c.hard_limit - c.soft_limit) * (c.hard_limit - pos k) < 0 →
        (cmdEfforts c pos jac n s.wrench_desi).getD k 0
          = c.stiffness * (c.soft_limit - pos k)) ∧
    (¬ sign (c.hard_limit - c.soft_limit) * (c.hard_limit - pos k) < 0 →
        sign (c.hard_limit - c.soft_limit) * (c.soft_limit - pos k) < 0 →
        (cmdEfforts c pos jac n s.wrench_desi).getD k 0
          = (baseEfforts jac s.wrench_desi n).getD k 0
              + c.stiffness * (c.soft_limit - pos k)) ∧
    (¬ sign (c.hard_limit - c.soft_limit) * (c.hard_limit - pos k) < 0 →
        ¬ sign (c.hard_limit - c.soft_limit) * (c.soft_limit - pos k) < 0 →
        cmdEfforts c pos jac n s.wrench_desi = baseEfforts jac s.wrench_desi n) ∧
    (∀ jac2 : ℕ → ℕ → ℚ, ∀ w : List ℚ,
        (cmdEfforts cEx (fun _ => 8/5) jac2 1 w).getD 0 0 = -6) := by
  have hlen : k < (baseEfforts jac s.wrench_desi n).length := by
    rw [baseEfforts_length]; exact hkn
  refine ⟨updateW_calibrated c pos jac n s, ?_, ?_, ?_, ?_⟩
  · intro hhard
    rw [cmdEfforts, applyConstraint_valid c pos n _ k hk hkn, if_pos hhard,
      getD_set_self _ _ _ hlen]
  · intro hhard hsoft
    rw [cmdEfforts, applyConstraint_valid c pos n _ k hk hkn, if_neg hhard,
      if_pos hsoft, getD_set_self _ _ _ hlen]
  · intro hhard hsoft
    rw [cmdEfforts, applyConstraint_valid c pos n _ k hk hkn, if_neg hhard,
      if_neg hsoft]
  · intro jac2 w
    rw [cmdEfforts, applyConstraint_valid cEx _ 1 _ 0 rfl (by norm_num)]
    rw [if_pos (by norm_num [sign, cEx])]
    rw [getD_set_self _ _ _ (by rw [baseEfforts_length]; norm_num)]
    norm_num [cEx]

/-- Witness for C2 on a one-joint chain with the example constraint and a
constant Jacobian. -/
theorem C2_witness :
    (cmdEfforts cEx (fun _ => 8/5) (fun _ _ => 2) 1 [1, 1, 1, 1, 1, 1]).getD 0 0
      = -6 :=
  (C2_constraint_adjustment cEx (fun _ => 8/5) (fun _ _ => 2) 1
      { wrench_desi := [1, 1, 1, 1, 1, 1], jnt_pos := [], jnt_eff := [] } 0
      rfl (by decide)).2.2.2.2 (fun _ _ => 2) [1, 1, 1, 1, 1, 1]

/-- C9: the constraint adjustment touches only the constrained joint's
entry: every other commanded effort entry is the raw Jacobian-transpose
projection. -/
theorem C9_other_joints_unchanged (c : Constraint) (pos : ℕ → ℚ)
    (jac : ℕ → ℕ → ℚ) (n : ℕ) (s : WState) (i : ℕ)
    (h0 : 0 ≤ c.joint) (h1 : c.joint < (n : ℤ)) (hi : i < n)
    (hne : (i : ℤ) ≠ c.joint) :
    ((updateW c true pos jac n s).2
        = some (cmdEfforts c pos jac n s.wrench_desi)) ∧
    (cmdEfforts c pos jac n s.wrench_desi).getD i 0
        = ∑ j ∈ Finset.range 6, jac j i * wrenchAt s.wrench_desi j := by
  refine ⟨updateW_calibrated c pos jac n s, ?_⟩
  have hk : c.joint = (c.joint.toNat : ℤ) := (Int.toNat_of_nonneg h0).symm
  have hkn : c.joint.toNat < n := by omega
  have hik : i ≠ c.joint.toNat := by omega
  rw [cmdEfforts, applyConstraint_valid c pos n _ _ hk hkn]
  have hbase := baseEfforts_getD jac s.wrench_desi n i hi
  split
  · rw [getD_set_ne _ _ _ _ hik]; exact hbase
  · split
    · rw [getD_set_ne _ _ _ _ hik]; exact hbase
    · exact hbase

/-- Witness for C9: two-joint chain, constraint on joint `1`, entry `0`
keeps its projected value. -/
theorem C9_witness :
    ((updateW { cEx with joint := 1 } true (fun _ => 8/5) idJac 2 sWx).2
        = some (cmdEfforts { cEx with joint := 1 } (fun _ => 8/5) idJac 2
            sWx.wrench_desi)) ∧
    (cmdEfforts { cEx with joint := 1 } (fun _ => 8/5) idJac 2
        sWx.wrench_desi).getD 0 0
      = ∑ j ∈ Finset.range 6, idJac j 0 * wrenchAt sWx.wrench_desi j :=
  C9_other_joints_unchanged { cEx with joint := 1 } (fun _ => 8/5) idJac 2 sWx 0
    (by decide) (by decide) (by decide) (by decide)

/-- C10: with an out-of-range constraint joint (negative sentinel or `≥`
the number of joints), the calibrated tick commands exactly the unmodified
Jacobian-transpose efforts. -/
theorem C10_out_of_range_constraint (c : Constraint) (pos : ℕ → ℚ)
    (jac : ℕ → ℕ → ℚ) (n : ℕ) (s : WState)
    (h : c.joint < 0 ∨ (n : ℤ) ≤ c.joint) :
    (updateW c true pos jac n s).2 = some (baseEfforts jac s.wrench_desi n) := by
  rw [updateW_calibrated, cmdEfforts, applyConstraint_invalid c pos n _ h]

/-- Witness for C10 with the `-1` sentinel. -/
theorem C10_witness :
    (updateW noConstraint true (fun _ => 0) idJac 6 sWx).2
      = some (baseEfforts idJac sWx.wrench_desi 6) :=
  C10_out_of_range_constraint noConstraint (fun _ => 0) idJac 6 sWx
    (Or.inl (by decide))

/-- C4: each tick either keeps the calibration state or advances it to the
immediate successor in
`INITIALIZED → BEGINNING → STARTING → CLOSING → CALIBRATED`, and
`CALIBRATED` is terminal. -/
theorem C4_linear_state_order (sv : ℚ) (s : GState) (inp : TickInput) :
    (ordS (updateG sv s inp).1.state = ordS s.state ∨
       ordS (updateG sv s inp).1.state = ordS s.state + 1) ∧
    (s.state = CalState.CALIBRATED →
       (updateG sv s inp).1.state = CalState.CALIBRATED) := by
  constructor
  · cases h : s.state <;> simp only [updateG, h] <;> (repeat' split) <;>
      simp [ordS, h]
  · intro h
    simp only [updateG, h]
    (repeat' split) <;> simp [h]

/-- Witness for C4 at a concrete `BEGINNING` state and tick input. -/
theorem C4_witness :
    ordS (updateG 3 sBeg inpStill).1.state = ordS sBeg.state ∨
      ordS (updateG 3 sBeg inpStill).1.state = ordS sBeg.state + 1 :=
  (C4_linear_state_order 3 sBeg inpStill).1

/-- C5 counterexample: the `BEGINNING` tick does not clear a dependent
joint's calibration flag — from `otherCalibrated = [true]` it stays
`[true]`, not the `[false]` the claim requires. -/
theorem C5_counterexample :
    (updateG 3 sBeg inpStill).1.otherCalibrated = [true] ∧
    (updateG 3 sBeg inpStill).1.otherCalibrated ≠ [false] := by
  decide

/-- C5 (amended): the `BEGINNING` tick resets both counters, clears the
primary joint's calibration flag (dependent joints' flags are left
untouched), zeroes the actuator's zero offset, commands the inner servo at
`search_velocity`, transitions to `STARTING`, and publishes nothing. -/
theorem C5_beginning_actions (sv : ℚ) (s : GState) (inp : TickInput)
    (h : s.state = CalState.BEGINNING) :
    updateG sv s inp =
      ({ s with count := 0, stopCount := 0, jointCalibrated := false,
                zeroOffset := 0, vcCommand := sv,
                state := CalState.STARTING }, false) := by
  simp [updateG, h]

/-- Witness for C5 at the concrete `BEGINNING` state `sBeg`. -/
theorem C5_witness :
    updateG 3 sBeg inpStill =
      ({ sBeg with count := 0, stopCount := 0, jointCalibrated := false,
                   zeroOffset := 0, vcCommand := 3,
                   state := CalState.STARTING }, false) :=
  C5_beginning_actions 3 sBeg inpStill rfl

/-! ## Lemmas on the `CLOSING` and `CALIBRATED` phases -/

theorem updateG_closing_below (sv : ℚ) (s : GState) (inp : TickInput)
    (h : s.state = CalState.CLOSING) (hv : |inp.velocity| < 1/10000)
    (hc : s.stopCount + 1 ≤ 100) :
    (updateG sv s inp).1 = { s with stopCount := s.stopCount + 1 } := by
  simp only [updateG, h]
  rw [if_pos hv, if_neg (by omega)]

theorem updateG_closing_above (sv : ℚ) (s : GState) (inp : TickInput)
    (h : s.state = CalState.CLOSING) (hv : ¬ |inp.velocity| < 1/10000) :
    (updateG sv s inp).1 = { s with stopCount := 0 } := by
  simp only [updateG, h]
  rw [if_neg hv, if_neg (by omega)]

theorem updateG_closing_fire (sv : ℚ) (s : GState) (inp : TickInput)
    (h : s.state = CalState.CLOSING) (hv : |inp.velocity| < 1/10000)
    (hc : 100 < s.stopCount + 1) :
    (updateG sv s inp).1 =
      { s with stopCount := s.stopCount + 1,
               zeroOffset := inp.actuatorPosition,
               state := CalState.CALIBRATED,
               jointCalibrated := true,
               otherCalibrated := s.otherCalibrated.map (fun _ => true),
               vcCommand := 0 } := by
  simp only [updateG, h]
  rw [if_pos hv, if_pos hc]

theorem iterG_closing_run (sv : ℚ) (s : GState) (f : ℕ → TickInput)
    (hs : s.state = CalState.CLOSING) (hsc : s.stopCount = 0)
    (hf : ∀ i, i ≤ 100 → |(f i).velocity| < 1/10000) :
    ∀ k, k ≤ 100 → iterG sv s f k = { s with stopCount := k } := by
  intro k
  induction k with
  | zero =>
      intro _
      simp only [iterG]
      rw [← hsc]
  | succ k ih =>
      intro hk
      rw [iterG, ih (by omega),
        updateG_closing_below sv { s with stopCount := k } (f k) hs
          (hf k (by omega)) (by show k + 1 ≤ 100; omega)]

theorem lastPublish_mono (sv : ℚ) (s : GState) (inp : TickInput) :
    s.lastPublishTime ≤ (updateG sv s inp).1.lastPublishTime := by
  cases h : s.state <;> simp only [updateG, h]
  · exact le_refl _
  · exact le_refl _
  · split <;> exact le_refl _
  · split <;> split <;> exact le_refl _
  · split
    · split
      · rename_i hlt _
        show s.lastPublishTime ≤ inp.time
        linarith
      · exact le_refl _
    · exact le_refl _

theorem iterG_lastPublish_mono (sv : ℚ) (s : GState) (f : ℕ → TickInput) :
    ∀ a b, a ≤ b →
      (iterG sv s f a).lastPublishTime ≤ (iterG sv s f b).lastPublishTime := by
  intro a b hab
  induction b with
  | zero =>
      have : a = 0 := Nat.le_zero.mp hab
      rw [this]
  | succ b ih =>
      rcases Nat.lt_or_ge a (b + 1) with h | h
      · exact le_trans (ih (Nat.lt_succ_iff.mp h))
          (lastPublish_mono sv (iterG sv s f b) (f b))
      · have : a = b + 1 := by omega
        rw [this]

theorem publish_spec (sv : ℚ) (s : GState) (inp : TickInput)
    (h : (updateG sv s inp).2 = true) :
    s.lastPublishTime + 1/2 < inp.time ∧
    (updateG sv s inp).1.lastPublishTime = inp.time := by
  cases hs : s.state <;> simp only [updateG, hs] at h ⊢
  · simp at h
  · simp at h
  · split at h <;> simp at h
  · split at h <;> split at h <;> simp at h
  · split at h
    · split at h
      · rename_i hlt htl
        rw [if_pos hlt, if_pos htl]
        exact ⟨hlt, rfl⟩
      · simp at h
    · simp at h

theorem publishesAt_spec (sv : ℚ) (s : GState) (f : ℕ → TickInput) (n : ℕ)
    (h : publishesAt sv s f n = true) :
    (iterG sv s f n).lastPublishTime + 1/2 < (f n).time ∧
    (iterG sv s f (n + 1)).lastPublishTime = (f n).time :=
  publish_spec sv (iterG sv s f n) (f n) h

/-- C1 counterexample: starting freshly in `CLOSING` with the velocity held
at `0` (below the stall threshold), after 100 consecutive qualifying ticks
the sequencer is still in `CLOSING`, not `CALIBRATED` — the claim's
transition "on the 100th qualifying tick" does not happen (the code requires
`stop_count_ > 100`, reached only on the 101st). -/
theorem C1_counterexample :
    (iterG 3 sClo fStill 100).state = CalState.CLOSING ∧
    (iterG 3 sClo fStill 100).state ≠ CalState.CALIBRATED := by
  have h := iterG_closing_run 3 sClo fStill rfl rfl
    (fun i _ => by norm_num [fStill]) 100 (le_refl 100)
  rw [h]
  exact ⟨rfl, by decide⟩

/-- C1 (amended): with the velocity magnitude below the stall threshold
(`0.0001`) on every tick, the sequencer stays in `CLOSING` through the
first 100 qualifying ticks and transitions to `CALIBRATED` on the 101st;
at that transition the actuator's zero offset is set to the actuator's raw
position of that tick, the primary joint and every dependent joint are
marked calibrated, and the inner velocity-servo setpoint is set to `0`. -/
theorem C1_stall_calibrates_on_101st (sv : ℚ) (s : GState) (f : ℕ → TickInput)
    (hs : s.state = CalState.CLOSING) (hsc : s.stopCount = 0)
    (hf : ∀ i, i ≤ 100 → |(f i).velocity| < 1/10000) :
    (∀ k, k ≤ 100 → (iterG sv s f k).state = CalState.CLOSING) ∧
    (iterG sv s f 101).state = CalState.CALIBRATED ∧
    (iterG sv s f 101).zeroOffset = (f 100).actuatorPosition ∧
    (iterG sv s f 101).jointCalibrated = true ∧
    (iterG sv s f 101).otherCalibrated = s.otherCalibrated.map (fun _ => true) ∧
    (iterG sv s f 101).vcCommand = 0 := by
  have hrun := iterG_closing_run sv s f hs hsc hf
  have h101 : iterG sv s f 101 =
      { s with stopCount := 101,
               zeroOffset := (f 100).actuatorPosition,
               state := CalState.CALIBRATED,
               jointCalibrated := true,
               otherCalibrated := s.otherCalibrated.map (fun _ => true),
               vcCommand := 0 } := by
    show (updateG sv (iterG sv s f 100) (f 100)).1 = _
    rw [hrun 100 (le_refl 100),
      updateG_closing_fire sv { s with stopCount := 100 } (f 100) hs
        (hf 100 (le_refl 100)) (by show 100 < 100 + 1; omega)]
  refine ⟨?_, ?_, ?_, ?_, ?_, ?_⟩
  · intro k hk
    rw [hrun k hk]
    exact hs
  · rw [h101]
  · rw [h101]
  · rw [h101]
  · rw [h101]
  · rw [h101]

/-- Witness for C1 (amended) on the concrete fresh `CLOSING` state and the
at-rest input stream. -/
theorem C1_witness :
    (iterG 3 sClo fStill 101).state = CalState.CALIBRATED :=
  (C1_stall_calibrates_on_101st 3 sClo fStill rfl rfl
    (fun i _ => by norm_num [fStill])).2.1

theorem closing_invariant (sv : ℚ) (s : GState) (f : ℕ → TickInput)
    (hs : s.state = CalState.CLOSING) (hsc : s.stopCount = 0)
    (hrun : ∀ k, ∃ i, k ≤ i ∧ i < k + 100 ∧ ¬ |(f i).velocity| < 1/10000) :
    ∀ n, (iterG sv s f n).state = CalState.CLOSING ∧
      (iterG sv s f n).stopCount ≤ 99 ∧
      (iterG sv s f n).stopCount ≤ n ∧
      (∀ m, m < n → n < m + 1 + (iterG sv s f n).stopCount →
        |(f m).velocity| < 1/10000) := by
  intro n
  induction n with
  | zero =>
      refine ⟨hs, ?_, ?_, ?_⟩
      · show s.stopCount ≤ 99
        omega
      · show s.stopCount ≤ 0
        omega
      · intro m hm
        exact absurd hm (Nat.not_lt_zero m)
  | succ n ih =>
      obtain ⟨hstate, h99, hn, hbelow⟩ := ih
      by_cases hv : |(f n).velocity| < 1/10000
      · have hnew : iterG sv s f (n + 1) =
            { iterG sv s f n with
                stopCount := (iterG sv s f n).stopCount + 1 } :=
          updateG_closing_below sv (iterG sv s f n) (f n) hstate hv (by omega)
        have hbound : (iterG sv s f n).stopCount + 1 ≤ 99 := by
          by_contra hcon
          have h100 : (iterG sv s f n).stopCount = 99 := by omega
          obtain ⟨i, hki, hik, habove⟩ := hrun (n - 99)
          have hn99 : 99 ≤ n := by omega
          refine habove ?_
          rcases Nat.lt_or_ge i n with hlt | hge
          · exact hbelow i hlt (by omega)
          · have hin : i = n := by omega
            rw [hin]
            exact hv
        refine ⟨?_, ?_, ?_, ?_⟩
        · rw [hnew]
          exact hstate
        · rw [hnew]
          show (iterG sv s f n).stopCount + 1 ≤ 99
          exact hbound
        · rw [hnew]
          show (iterG sv s f n).stopCount + 1 ≤ n + 1
          omega
        · rw [hnew]
          intro m hm hmn
          have hmn2 : n + 1 < m + 1 + ((iterG sv s f n).stopCount + 1) := hmn
          rcases Nat.lt_or_ge m n with hlt | hge
          · exact hbelow m hlt (by omega)
          · have hmnn : m = n := by omega
            rw [hmnn]
            exact hv
      · have hnew : iterG sv s f (n + 1) =
            { iterG sv s f n with stopCount := 0 } :=
          updateG_closing_above sv (iterG sv s f n) (f n) hstate hv
        refine ⟨?_, ?_, ?_, ?_⟩
        · rw [hnew]
          exact hstate
        · rw [hnew]
          show (0 : ℕ) ≤ 99
          omega
        · rw [hnew]
          show (0 : ℕ) ≤ n + 1
          omega
        · rw [hnew]
          intro m hm hmn
          have hmn2 : n + 1 < m + 1 + 0 := hmn
          omega

/-- C7: any two ticks that both publish the "calibrated" event carry robot
timestamps more than `0.5` seconds apart — the event is throttled to at
most once per half second regardless of tick rate — and a `CALIBRATED`
tick whose `trylock` fails publishes nothing and leaves the controller
state, including the last-publish timestamp, unchanged. -/
theorem C7_publish_throttled (sv : ℚ) (s : GState) (f : ℕ → TickInput)
    (i j : ℕ) (hij : i < j)
    (hi : publishesAt sv s f i = true) (hj : publishesAt sv s f j = true) :
    (f i).time + 1/2 < (f j).time ∧
    (∀ (t : GState) (inp : TickInput), t.state = CalState.CALIBRATED →
        inp.trylockOk = false → updateG sv t inp = (t, false)) := by
  constructor
  · have h1 := publishesAt_spec sv s f i hi
    have h2 := publishesAt_spec sv s f j hj
    have hmono := iterG_lastPublish_mono sv s f (i + 1) j hij
    calc (f i).time + 1/2
        = (iterG sv s f (i + 1)).lastPublishTime + 1/2 := by rw [h1.2]
      _ ≤ (iterG sv s f j).lastPublishTime + 1/2 := by linarith
      _ < (f j).time := h2.1
  · intro t inp ht htl
    simp only [updateG, ht]
    split
    · rw [if_neg (by simp [htl])]
    · rfl

/-- Witness for C7: with a fresh `CALIBRATED` state and the clock stream,
ticks `0` and `1` both publish, one second apart. -/
theorem C7_witness : (fClock 0).time + 1/2 < (fClock 1).time :=
  (C7_publish_throttled 0 sCal fClock 0 1 (by norm_num)
      (by norm_num [publishesAt, iterG, updateG, sCal, fClock])
      (by norm_num [publishesAt, iterG, updateG, sCal, fClock])).1

/-- C8: in `CLOSING`, a below-threshold tick increments `stop_count` and
any other tick resets it to `0`; if no window of 100 consecutive ticks is
entirely below the stall threshold, the sequencer stays in `CLOSING` on
every tick, forever. -/
theorem C8_no_stall_never_calibrates (sv : ℚ) (s : GState) (f : ℕ → TickInput)
    (hs : s.state = CalState.CLOSING) (hsc : s.stopCount = 0)
    (hrun : ∀ k, ∃ i, k ≤ i ∧ i < k + 100 ∧ ¬ |(f i).velocity| < 1/10000) :
    (∀ n, (iterG sv s f n).state = CalState.CLOSING) ∧
    (∀ (t : GState) (inp : TickInput), t.state = CalState.CLOSING →
        (updateG sv t inp).1.stopCount
          = if |inp.velocity| < 1/10000 then t.stopCount + 1 else 0) := by
  refine ⟨fun n => (closing_invariant sv s f hs hsc hrun n).1, ?_⟩
  intro t inp ht
  simp only [updateG, ht]
  split <;> split <;> rfl

/-- Witness for C8: a stream that moves on every tick (velocity `1`) keeps
the sequencer in `CLOSING` at tick 250. -/
theorem C8_witness : (iterG 3 sClo fMoving 250).state = CalState.CLOSING :=
  (C8_no_stall_never_calibrates 3 sClo fMoving rfl rfl
    (fun k => ⟨k, le_refl k, by omega, by norm_num [fMoving]⟩)).1 250
